import Mathlib

/-!
Verification of the `cmplr` build CLI (`src/bin/cmplr.ts`), a zero-config
TypeScript/JavaScript build tool.  The definitions below are a shallow
embedding of the relevant functions of that file: filesystem state is passed
explicitly (directory listings as lists of entries, existence probes as
booleans), JavaScript `undefined` is `Option.none`, JavaScript exceptions are
`Except.error`, and JSON objects are records with an opaque `rest` component
for fields the program never touches.
-/

/-- JavaScript truthiness of an optional string: `undefined` and the empty
string are falsy, every other string is truthy. -/
def jsTruthy : Option String → Bool
  | none => false
  | some s => !(s == "")

/-- JavaScript string coercion of an optional string, as performed by
template literals: `undefined` prints as the literal text "undefined". -/
def jsToStr : Option String → String
  | none => "undefined"
  | some s => s

/-- JavaScript `x || y` on an optional string `x` (truthiness-based choice),
returning an optional result; used for `entryPoints.find(...) || entryPoints[0]`. -/
def jsOrStr (x y : Option String) : Option String :=
  match x with
  | none => y
  | some s => if s == "" then y else some s

/-- JavaScript `x || d` where a falsy string (absent or empty) falls back to
the default `d`; used for `baseConfig.jsc?.target || "es2020"`. -/
def orTruthyStr (x : Option String) (d : String) : String :=
  match x with
  | none => d
  | some s => if s == "" then d else s

/-- Whether `pre` is a prefix of `l`, on character lists. -/
def listHasPre : List Char → List Char → Bool
  | [], _ => true
  | _ :: _, [] => false
  | a :: as, b :: bs => a == b && listHasPre as bs

/-- Whether `sub` occurs as a contiguous sublist of `l`. -/
def listHasSub (sub : List Char) : List Char → Bool
  | [] => listHasPre sub []
  | b :: bs => listHasPre sub (b :: bs) || listHasSub sub bs

/-- JavaScript `s.includes(sub)`: substring containment. -/
def containsSub (sub s : String) : Bool :=
  listHasSub sub.data s.data

/-- JavaScript `s.startsWith(pre)`.  (The library `String.startsWith` is
avoided because its byte-level loop does not reduce in the kernel.) -/
def jsStartsWith (s pre : String) : Bool :=
  listHasPre pre.data s.data

/-- JavaScript `s.endsWith(suf)`. -/
def jsEndsWith (s suf : String) : Bool :=
  listHasPre suf.data.reverse s.data.reverse

/-- Node `path.parse(s).name`: the file name with its final extension
removed.  The extension starts at the last dot, unless that dot is the first
character (dot-files such as ".bashrc" have no extension). -/
def pathParseName (s : String) : String :=
  let cs := s.data
  match cs.reverse.findIdx? (fun c => c == '.') with
  | none => s
  | some j =>
    let i := cs.length - 1 - j
    if i == 0 then s else ⟨cs.take i⟩

/-- One entry of a directory listing, as returned by
`fs.readdir(dir, { withFileTypes: true })`. -/
structure DirEntry where
  name : String
  isFile : Bool
deriving DecidableEq, Repr

/-- The filter applied by `detectEntryPoints` (src/bin/cmplr.ts lines
324-329): extension in {.ts, .tsx, .js, .jsx} and name containing neither
".test." nor ".spec.". -/
def entryFileOk (file : String) : Bool :=
  (jsEndsWith file ".ts" || jsEndsWith file ".tsx" || jsEndsWith file ".js" || jsEndsWith file ".jsx")
    && !(containsSub ".test." file) && !(containsSub ".spec." file)

/-- `detectEntryPoints` (src/bin/cmplr.ts lines 315-338).  `contents` is the
directory listing of `srcDir`, or `none` when the directory does not exist
(`fileExists` fails); a thrown `Error` is `Except.error`.  The source keeps
the "index file present" branch even though both branches return the same
list. -/
def detectEntryPoints (srcDir : String) (contents : Option (List DirEntry)) :
    Except String (List String) :=
  match contents with
  | none => .error ("Source directory " ++ srcDir ++ " does not exist")
  | some dirents =>
    let files := ((dirents.filter (fun d => d.isFile)).map (fun d => d.name)).filter entryFileOk
    match files.find? (fun file => jsStartsWith file "index.") with
    | some _ => files |> .ok
    | none => .ok files

/-- The plain filter the specification describes for entry-point detection
(§3 / §4.4): regular files of the directory whose names pass the extension
whitelist and test/spec exclusion, with no further branching.  Stated from
the words of the spec, for comparison with `detectEntryPoints`. -/
def specEntryPoints (dirents : List DirEntry) : List String :=
  ((dirents.filter (fun d => d.isFile)).map (fun d => d.name)).filter entryFileOk

/-- The `compilerOptions` fields of a tsconfig that the program reads. -/
structure CompilerOptions where
  rootDir : Option String
  experimentalDecorators : Option Bool
deriving DecidableEq, Repr

/-- The tsconfig fields the program reads (`TSConfig`); all other content is
irrelevant to the embedded functions. -/
structure TSConfig where
  compilerOptions : Option CompilerOptions
  exclude : Option (List String)
deriving DecidableEq, Repr

/-- The optional chain `tsconfig?.compilerOptions?.rootDir`. -/
def tsconfigRootDir (tsconfig : Option TSConfig) : Option String :=
  (tsconfig.bind (fun t => t.compilerOptions)).bind (fun c => c.rootDir)

/-- Result of the three `fileExists` probes performed by `detectSourceDir`:
whether paths named "src", "lib" and "bin" exist in the working directory. -/
structure FSProbe where
  srcExists : Bool
  libExists : Bool
  binExists : Bool
deriving DecidableEq, Repr

/-- `detectSourceDir` (src/bin/cmplr.ts lines 234-249).  `if (srcDirArg)`
and `if (tsconfig?.compilerOptions?.rootDir)` are JavaScript truthiness
checks, so an empty string behaves like an absent value. -/
def detectSourceDir (tsconfig : Option TSConfig) (srcDirArg : Option String)
    (fsp : FSProbe) : String :=
  if jsTruthy srcDirArg then jsToStr srcDirArg
  else if jsTruthy (tsconfigRootDir tsconfig) then jsToStr (tsconfigRootDir tsconfig)
  else if fsp.srcExists then "src"
  else if fsp.libExists then "lib"
  else if fsp.binExists then "bin"
  else "src"

/-- The `parser` part of the base config produced by the external
`tsconfig-swc` converter.  Only `decorators` is read individually; all other
keys carried over by the object spread are kept opaquely in `rest`. -/
structure BaseParser where
  decorators : Option Bool
  rest : List (String × String)
deriving DecidableEq, Repr

/-- The `jsc` part of the converter output; recognized keys explicit,
spread-only keys opaque in `rest`. -/
structure BaseJsc where
  parser : Option BaseParser
  target : Option String
  loose : Option Bool
  externalHelpers : Option Bool
  rest : List (String × String)
deriving DecidableEq, Repr

/-- The untyped base config returned by `convert(tsconfig)` (`let baseConfig:
any = {}` in the source); spread-only top-level keys opaque in `rest`. -/
structure BaseConfig where
  jsc : Option BaseJsc
  sourceMaps : Option Bool
  exclude : Option (List String)
  rest : List (String × String)
deriving DecidableEq, Repr

/-- The empty object `{}` used as the fallback base config. -/
def BaseConfig.empty : BaseConfig :=
  { jsc := none, sourceMaps := none, exclude := none, rest := [] }

/-- `SWCConfig.jsc.parser` as built by `createSWCConfig`. -/
structure SWCParser where
  syn : String
  tsx : Bool
  jsx : Bool
  decorators : Bool
  rest : List (String × String)
deriving DecidableEq, Repr

/-- `SWCConfig.jsc` as built by `createSWCConfig`. -/
structure SWCJsc where
  parser : SWCParser
  target : String
  loose : Bool
  externalHelpers : Bool
  rest : List (String × String)
deriving DecidableEq, Repr

/-- `SWCConfig.module`: the module-format field. -/
structure SWCModule where
  type : String
deriving DecidableEq, Repr

/-- The compiler configuration record written for the external compiler
(the `SWCConfig` interface, src/bin/cmplr.ts lines 9-26), extended with the
opaque spread remainders of the base config. -/
structure SWCConfig where
  jsc : SWCJsc
  module : SWCModule
  sourceMaps : Bool
  exclude : Option (List String)
  rest : List (String × String)
deriving DecidableEq, Repr

/-- `createSWCConfig` (src/bin/cmplr.ts lines 251-313).  `files` is the list
of names of regular files in the source directory (the rescanning at lines
256-262); `convert` is the external `tsconfig-swc` converter, a pure
function that may throw (`Except.error`), in which case the fallback base
`{}` is used.  All field choices mirror the source: `??` is `Option.getD`,
`||` on strings is `orTruthyStr`, and `module.type` is forced to the
requested value. -/
def createSWCConfig (convert : TSConfig → Except String BaseConfig)
    (tsconfig : Option TSConfig) (files : List String) (moduleType : String) : SWCConfig :=
  let hasTypeScript := files.any (fun f => jsEndsWith f ".ts" || jsEndsWith f ".tsx")
  let hasTSX := files.any (fun f => jsEndsWith f ".tsx")
  let hasJSX := files.any (fun f => jsEndsWith f ".jsx" || jsEndsWith f ".tsx")
  let baseConfig : BaseConfig :=
    match tsconfig with
    | none => BaseConfig.empty
    | some t =>
      match convert t with
      | .ok b => b
      | .error _ => BaseConfig.empty
  { jsc :=
      { parser :=
          { syn := if hasTypeScript then "typescript" else "ecmascript",
            tsx := hasTSX,
            jsx := hasJSX,
            decorators :=
              ((baseConfig.jsc.bind (fun j => j.parser)).bind (fun p => p.decorators)).getD
                (((tsconfig.bind (fun t => t.compilerOptions)).bind
                    (fun c => c.experimentalDecorators)).getD false),
            rest := ((baseConfig.jsc.bind (fun j => j.parser)).map (fun p => p.rest)).getD [] },
        target := orTruthyStr (baseConfig.jsc.bind (fun j => j.target)) "es2020",
        loose := (baseConfig.jsc.bind (fun j => j.loose)).getD false,
        externalHelpers := (baseConfig.jsc.bind (fun j => j.externalHelpers)).getD false,
        rest := (baseConfig.jsc.map (fun j => j.rest)).getD [] },
    module := { type := moduleType },
    sourceMaps := baseConfig.sourceMaps.getD true,
    exclude :=
      match tsconfig.bind (fun t => t.exclude) with
      | some e => some e
      | none => baseConfig.exclude,
    rest := baseConfig.rest }

/-- One value of the export map: the object
`{ import: ..., require: ..., types?: ... }` (src/bin/cmplr.ts lines
384-388 and 395-399). -/
structure ExportEntry where
  importPath : String
  requirePath : String
  typesPath : Option String
deriving DecidableEq, Repr

/-- The export-map object literal built for base name `baseName`:
`{ import: "./<outDir>/esm/<b>.js", require: "./<outDir>/cjs/<b>.js",
...(noTypes ? \x7b\x7d : \x7b types: "./<outDir>/types/<b>.d.ts" \x7d) }`. -/
def mkExportEntry (outDir baseName : String) (noTypes : Bool) : ExportEntry :=
  { importPath := "./" ++ outDir ++ "/esm/" ++ baseName ++ ".js",
    requirePath := "./" ++ outDir ++ "/cjs/" ++ baseName ++ ".js",
    typesPath := if noTypes then none else some ("./" ++ outDir ++ "/types/" ++ baseName ++ ".d.ts") }

/-- The package manifest (`package.json`): the five fields the program
mutates, plus an opaque `rest` for every other field.  The export map is an
insertion-ordered association list, matching JavaScript object key order. -/
structure PackageJson where
  main : Option String
  module : Option String
  types : Option String
  exports : Option (List (String × ExportEntry))
  files : Option (List String)
  rest : List (String × String)
deriving DecidableEq, Repr

/-- JavaScript object key assignment `obj[k] = v` on an insertion-ordered
association list: an existing key keeps its position and gets the new value,
a fresh key is appended. -/
def objSet (m : List (String × ExportEntry)) (k : String) (v : ExportEntry) :
    List (String × ExportEntry) :=
  if m.any (fun p => p.1 == k) then m.map (fun p => if p.1 == k then (k, v) else p)
  else m ++ [(k, v)]

/-- The `files` update of `updatePackageJsonExports` (src/bin/cmplr.ts lines
412-420): create `[outDir]` when the field is absent, append `outDir` when
it is an array not already containing it. -/
def filesUpdate (files : Option (List String)) (outDir : String) : Option (List String) :=
  match files with
  | none => some [outDir]
  | some fl => if fl.contains outDir then some fl else some (fl ++ [outDir])

/-- `updatePackageJsonExports` (src/bin/cmplr.ts lines 361-426) for an
existing manifest `packageJson` (the missing-manifest early return is
modelled in `compileMain`).  A JavaScript `TypeError` — `path.parse` applied
to `undefined` when the entry list is empty — is `Except.error`; the write
of the updated manifest happens only on `Except.ok`. -/
def updatePackageJsonExports (entryPoints : List String) (outDir : String)
    (noTypes : Bool) (packageJson : PackageJson) : Except String PackageJson :=
  if entryPoints.length == 1 && (jsStartsWith (entryPoints.getD 0 "") "index.") then
    let baseName := pathParseName (entryPoints.getD 0 "")
    .ok { packageJson with
      main := some ("./" ++ outDir ++ "/cjs/" ++ baseName ++ ".js"),
      module := some ("./" ++ outDir ++ "/esm/" ++ baseName ++ ".js"),
      types := if noTypes then packageJson.types
        else some ("./" ++ outDir ++ "/types/" ++ baseName ++ ".d.ts"),
      exports := some [(".", mkExportEntry outDir baseName noTypes)],
      files := filesUpdate packageJson.files outDir }
  else
    let exportsMap := entryPoints.foldl (fun m entry =>
      let baseName := pathParseName entry
      let exportKey := if baseName == "index" then "." else "./" ++ baseName
      objSet m exportKey (mkExportEntry outDir baseName noTypes)) []
    match jsOrStr (entryPoints.find? (fun e => jsStartsWith e "index.")) entryPoints.head? with
    | none => .error "TypeError: path.parse received undefined"
    | some mainEntry =>
      let mainBaseName := pathParseName mainEntry
      .ok { packageJson with
        exports := some exportsMap,
        main := some ("./" ++ outDir ++ "/cjs/" ++ mainBaseName ++ ".js"),
        module := some ("./" ++ outDir ++ "/esm/" ++ mainBaseName ++ ".js"),
        types := if noTypes then packageJson.types
          else some ("./" ++ outDir ++ "/types/" ++ mainBaseName ++ ".d.ts"),
        files := filesUpdate packageJson.files outDir }

/-- The export-map key an entry produces: "." for base name "index",
"./<basename>" otherwise. -/
def specExportKey (entry : String) : String :=
  if pathParseName entry == "index" then "." else "./" ++ pathParseName entry

/-- Append a key to a key list unless it is already present: the effect of
one JavaScript object assignment on the ordered key set. -/
def insKey (ks : List String) (k : String) : List String :=
  if ks.any (fun x => x == k) then ks else ks ++ [k]

/-- The ordered key set of the export map built for `entryPoints`:
first-occurrence order of the keys the entries produce. -/
def exportKeys (entryPoints : List String) : List String :=
  entryPoints.foldl (fun ks e => insKey ks (specExportKey e)) []

/-- The parsed command-line request (`CLIArgs`, src/bin/cmplr.ts lines
28-39).  `outDir` has TypeScript type `string`, but `args[++i]` can assign
`undefined` to it at runtime, so it is modelled as an optional string with
default `some "dist"`. -/
structure CLIArgs where
  command : String
  dryRun : Bool
  help : Bool
  version : Bool
  srcDir : Option String
  outDir : Option String
  noTypes : Bool
  typeCheck : Bool
  projectName : Option String
deriving DecidableEq, Repr

/-- The initial `parsed` record of `parseArgs` (src/bin/cmplr.ts lines
106-114). -/
def initialCLIArgs : CLIArgs :=
  { command := "compile", dryRun := false, help := false, version := false,
    srcDir := none, outDir := some "dist", noTypes := false, typeCheck := false,
    projectName := none }

/-- The flag loop of `parseArgs` (src/bin/cmplr.ts lines 130-162).  A
value-taking flag consumes the next token; at the end of the list
`args[++i]` is `undefined`, hence `none`.  An unrecognized double-dash flag
calls `process.exit(1)`, modelled as `none`. -/
def parseFlags : CLIArgs → List String → Option CLIArgs
  | p, [] => some p
  | p, arg :: rest =>
    if arg == "--dry-run" then parseFlags { p with dryRun := true } rest
    else if arg == "--help" || arg == "-h" then parseFlags { p with help := true } rest
    else if arg == "--version" || arg == "-v" then parseFlags { p with version := true } rest
    else if arg == "--src-dir" then
      match rest with
      | [] => parseFlags { p with srcDir := none } []
      | v :: rest2 => parseFlags { p with srcDir := some v } rest2
    else if arg == "--out-dir" then
      match rest with
      | [] => parseFlags { p with outDir := none } []
      | v :: rest2 => parseFlags { p with outDir := some v } rest2
    else if arg == "--no-types" then parseFlags { p with noTypes := true } rest
    else if arg == "--type-check" then parseFlags { p with typeCheck := true } rest
    else if jsStartsWith arg "--" then none
    else parseFlags p rest

/-- `parseArgs` (src/bin/cmplr.ts lines 104-165) on the argument list
`process.argv.slice(2)`: the subcommand prelude (lines 117-128) followed by
the flag loop.  `none` is the `process.exit(1)` taken for an unknown
double-dash flag. -/
def parseArgs (args : List String) : Option CLIArgs :=
  match args with
  | [] => parseFlags initialCLIArgs []
  | a :: rest =>
    if !(jsStartsWith a "-") && a == "create" then
      match rest with
      | [] => parseFlags { initialCLIArgs with command := "create" } []
      | b :: rest2 =>
        if !(jsStartsWith b "-") then
          parseFlags { initialCLIArgs with command := "create", projectName := some b } rest2
        else
          parseFlags { initialCLIArgs with command := "create" } rest
    else parseFlags initialCLIArgs (a :: rest)

/-- The shell command built for the external compiler (src/bin/cmplr.ts
lines 623-626): a template literal, so an `undefined` output directory is
coerced to the text "undefined". -/
def swcCommand (srcDir : String) (outDir : Option String) (fmt : String)
    (configPath : String) : String :=
  "npx swc " ++ srcDir ++ " -d " ++ jsToStr outDir ++ "/" ++ fmt
    ++ " --config-file " ++ configPath ++ " --strip-leading-paths"

/-- The compile path of `main` (src/bin/cmplr.ts lines 594-655), restricted
to the steps the manifest claims depend on: `detectEntryPoints` runs outside
the try/catch, so its error reaches the top-level handler (exit code 1) and
nothing further runs; a missing manifest is skipped with a warning; an error
thrown by `updatePackageJsonExports` is caught by the try/catch (exit code
1) with the on-disk manifest unchanged.  External compiler and type-checker
invocations are modelled as succeeding, `dryRun` as false.  The result is
(exit code, on-disk manifest after the run). -/
def compileMain (srcDir : String) (contents : Option (List DirEntry)) (outDir : String)
    (noTypes : Bool) (diskManifest : Option PackageJson) : Nat × Option PackageJson :=
  match detectEntryPoints srcDir contents with
  | .error _ => (1, diskManifest)
  | .ok entryPoints =>
    match diskManifest with
    | none => (0, none)
    | some pj =>
      match updatePackageJsonExports entryPoints outDir noTypes pj with
      | .ok pj2 => (0, some pj2)
      | .error _ => (1, some pj)

/-- A concrete tsconfig with a rootDir hint, used by witness and
counterexample theorems. -/
def tsconfigLib : TSConfig :=
  { compilerOptions := some { rootDir := some "lib", experimentalDecorators := none },
    exclude := none }

/-- A concrete manifest used by the witness and counterexample theorems. -/
def pjDemo : PackageJson :=
  { main := none, module := none, types := none, exports := none,
    files := none, rest := [("name", "demo"), ("version", "1.0.0")] }

/-- Every value stored by one JavaScript object assignment satisfies `P`
when the previous values and the new value do. -/
theorem objSet_forall_values (P : ExportEntry → Prop) (m : List (String × ExportEntry))
    (k : String) (v : ExportEntry) (hm : ∀ kv ∈ m, P kv.2) (hv : P v) :
    ∀ kv ∈ objSet m k v, P kv.2 := by
  intro kv hkv
  unfold objSet at hkv
  split at hkv
  · obtain ⟨p, hp, rfl⟩ := List.mem_map.mp hkv
    by_cases hc : (p.1 == k) = true
    · rw [if_pos hc]
      exact hv
    · rw [if_neg hc]
      exact hm p hp
  · rcases List.mem_append.mp hkv with h1 | h1
    · exact hm kv h1
    · rw [List.mem_singleton] at h1
      subst h1
      exact hv

/-- Every value of an export map built by folding JavaScript object
assignments satisfies `P` when the initial values and all assigned values
do. -/
theorem foldl_objSet_forall_values (P : ExportEntry → Prop) (f : String → String)
    (g : String → ExportEntry) (hg : ∀ e, P (g e)) :
    ∀ (eps : List String) (m : List (String × ExportEntry)), (∀ kv ∈ m, P kv.2) →
      ∀ kv ∈ eps.foldl (fun acc e => objSet acc (f e) (g e)) m, P kv.2 := by
  intro eps
  induction eps with
  | nil => intro m hm; exact hm
  | cons e es ih =>
    intro m hm
    rw [List.foldl_cons]
    exact ih _ (objSet_forall_values P m (f e) (g e) hm (hg e))

/-- Overwriting the value at a key leaves the ordered key list of a
JavaScript object unchanged. -/
theorem overwrite_map_fst (m : List (String × ExportEntry)) (k : String) (v : ExportEntry) :
    (m.map (fun p => if p.1 == k then (k, v) else p)).map Prod.fst = m.map Prod.fst := by
  induction m with
  | nil => rfl
  | cons p ps ih =>
    simp only [List.map_cons, ih]
    by_cases hc : (p.1 == k) = true
    · rw [if_pos hc, eq_of_beq hc]
    · rw [if_neg hc]

/-- One JavaScript object assignment acts on the ordered key list as
`insKey`: keep it when the key exists, append the key otherwise. -/
theorem objSet_map_fst (m : List (String × ExportEntry)) (k : String) (v : ExportEntry) :
    (objSet m k v).map Prod.fst = insKey (m.map Prod.fst) k := by
  have hcn : ((m.map Prod.fst).any (fun x => x == k)) = m.any (fun p => p.1 == k) := by
    induction m with
    | nil => rfl
    | cons p ps ih => simp only [List.map_cons, List.any_cons, ih]
  unfold objSet insKey
  rw [hcn]
  by_cases hb : m.any (fun p => p.1 == k) = true
  · rw [if_pos hb, if_pos hb]
    exact overwrite_map_fst m k v
  · rw [if_neg hb, if_neg hb, List.map_append]
    rfl

/-- Folding JavaScript object assignments builds the ordered key list by
folding `insKey` over the produced keys. -/
theorem foldl_objSet_map_fst (f : String → String) (g : String → ExportEntry) :
    ∀ (eps : List String) (m : List (String × ExportEntry)),
      (eps.foldl (fun acc e => objSet acc (f e) (g e)) m).map Prod.fst
        = eps.foldl (fun ks e => insKey ks (f e)) (m.map Prod.fst) := by
  intro eps
  induction eps with
  | nil => intro m; rfl
  | cons e es ih =>
    intro m
    rw [List.foldl_cons, List.foldl_cons, ih, objSet_map_fst]

/-- `insKey` preserves freedom from duplicate keys. -/
theorem insKey_nodup (ks : List String) (k : String) (h : ks.Nodup) : (insKey ks k).Nodup := by
  unfold insKey
  split
  · exact h
  · rename_i hna
    rw [List.nodup_append]
    refine ⟨h, List.nodup_singleton k, fun a ha hb => ?_⟩
    rw [List.mem_singleton] at hb
    subst hb
    exact hna (List.any_eq_true.mpr ⟨a, ha, by simp⟩)

/-- Folding `insKey` from a duplicate-free start stays duplicate-free. -/
theorem foldl_insKey_nodup (f : String → String) :
    ∀ (eps : List String) (ks : List String), ks.Nodup →
      (eps.foldl (fun ks e => insKey ks (f e)) ks).Nodup := by
  intro eps
  induction eps with
  | nil => intro ks h; exact h
  | cons e es ih =>
    intro ks h
    rw [List.foldl_cons]
    exact ih _ (insKey_nodup _ _ h)

/-- The ordered key set of a multi-entry export map has no duplicates. -/
theorem exportKeys_nodup (eps : List String) : (exportKeys eps).Nodup :=
  foldl_insKey_nodup specExportKey eps [] List.nodup_nil

/-- Reduction of `updatePackageJsonExports` in the multi-entry branch, for
any entry list that fails the single-index test and yields a defined main
entry. -/
theorem updatePackageJsonExports_else (eps : List String) (outDir : String) (noTypes : Bool)
    (pj : PackageJson)
    (hlen : (eps.length == 1 && jsStartsWith (eps.getD 0 "") "index.") = false)
    (me : String)
    (hme : jsOrStr (eps.find? (fun e => jsStartsWith e "index.")) eps.head? = some me) :
    updatePackageJsonExports eps outDir noTypes pj = .ok { pj with
      exports := some (eps.foldl (fun m entry =>
        let baseName := pathParseName entry
        let exportKey := if baseName == "index" then "." else "./" ++ baseName
        objSet m exportKey (mkExportEntry outDir baseName noTypes)) []),
      main := some ("./" ++ outDir ++ "/cjs/" ++ pathParseName me ++ ".js"),
      module := some ("./" ++ outDir ++ "/esm/" ++ pathParseName me ++ ".js"),
      types := if noTypes then pj.types
        else some ("./" ++ outDir ++ "/types/" ++ pathParseName me ++ ".d.ts"),
      files := filesUpdate pj.files outDir } := by
  unfold updatePackageJsonExports
  rw [hlen, if_neg Bool.false_ne_true, hme]

/-- C5: for every existing source directory, `detectEntryPoints` returns
exactly the regular files whose names pass the extension whitelist and the
test/spec exclusion; the subsequent "has an index file" branch never changes
the returned list, so the function is extensionally equal to the plain
filter described by the spec. -/
theorem detectEntryPoints_eq_specEntryPoints (srcDir : String) (dirents : List DirEntry) :
    detectEntryPoints srcDir (some dirents) = .ok (specEntryPoints dirents) := by
  cases hf : (((dirents.filter (fun d => d.isFile)).map (fun d => d.name)).filter
      entryFileOk).find? (fun file => jsStartsWith file "index.") <;>
    simp only [detectEntryPoints, specEntryPoints, hf]

/-- C7: when the source directory does not exist, `detectEntryPoints`
throws a "missing source directory" error rather than returning a list, and
on the compile path this error is not caught and downgraded: the run exits
with code 1 and nothing further happens (in particular the on-disk manifest
is untouched). -/
theorem detectEntryPoints_missing_dir_fatal (srcDir outDir : String) (noTypes : Bool)
    (disk : Option PackageJson) :
    detectEntryPoints srcDir none = .error ("Source directory " ++ srcDir ++ " does not exist")
      ∧ compileMain srcDir none outDir noTypes disk = (1, disk) :=
  ⟨rfl, rfl⟩

/-- C4: the two compiler configurations produced in one run by
`createSWCConfig` — same converter, same tsconfig, same source-directory
scan — are equal in every field except `module.type`, which is the
requested module format. -/
theorem createSWCConfig_dual_formats (convert : TSConfig → Except String BaseConfig)
    (tsconfig : Option TSConfig) (files : List String) :
    createSWCConfig convert tsconfig files "commonjs"
        = { createSWCConfig convert tsconfig files "es6" with module := { type := "commonjs" } }
      ∧ (createSWCConfig convert tsconfig files "commonjs").module.type = "commonjs"
      ∧ (createSWCConfig convert tsconfig files "es6").module.type = "es6" :=
  ⟨rfl, rfl, rfl⟩

/-- C2: for a single entry point whose name starts with "index.",
`updatePackageJsonExports` sets `main` to "./(outDir)/cjs/(name).js" and
`module` to "./(outDir)/esm/(name).js", and replaces `exports` with a map
having exactly one key "." whose import/require targets are the ESM and CJS
paths for that file. -/
theorem updatePackageJsonExports_single_index (name outDir : String) (noTypes : Bool)
    (pj : PackageJson) (h : jsStartsWith name "index." = true) :
    ∃ pj2, updatePackageJsonExports [name] outDir noTypes pj = .ok pj2
      ∧ pj2.main = some ("./" ++ outDir ++ "/cjs/" ++ pathParseName name ++ ".js")
      ∧ pj2.module = some ("./" ++ outDir ++ "/esm/" ++ pathParseName name ++ ".js")
      ∧ ∃ entry, pj2.exports = some [(".", entry)]
        ∧ entry.importPath = "./" ++ outDir ++ "/esm/" ++ pathParseName name ++ ".js"
        ∧ entry.requirePath = "./" ++ outDir ++ "/cjs/" ++ pathParseName name ++ ".js" := by
  have heq : updatePackageJsonExports [name] outDir noTypes pj = .ok { pj with
      main := some ("./" ++ outDir ++ "/cjs/" ++ pathParseName name ++ ".js"),
      module := some ("./" ++ outDir ++ "/esm/" ++ pathParseName name ++ ".js"),
      types := if noTypes then pj.types
        else some ("./" ++ outDir ++ "/types/" ++ pathParseName name ++ ".d.ts"),
      exports := some [(".", mkExportEntry outDir (pathParseName name) noTypes)],
      files := filesUpdate pj.files outDir } := by
    unfold updatePackageJsonExports
    simp [h]
  exact ⟨_, heq, rfl, rfl, mkExportEntry outDir (pathParseName name) noTypes, rfl, rfl, rfl⟩

/-- Witness for C2 at the concrete entry list ["index.ts"]. -/
theorem updatePackageJsonExports_single_index_witness :
    ∃ pj2, updatePackageJsonExports ["index.ts"] "dist" false pjDemo = .ok pj2
      ∧ pj2.main = some ("./" ++ "dist" ++ "/cjs/" ++ pathParseName "index.ts" ++ ".js")
      ∧ pj2.module = some ("./" ++ "dist" ++ "/esm/" ++ pathParseName "index.ts" ++ ".js")
      ∧ ∃ entry, pj2.exports = some [(".", entry)]
        ∧ entry.importPath = "./" ++ "dist" ++ "/esm/" ++ pathParseName "index.ts" ++ ".js"
        ∧ entry.requirePath = "./" ++ "dist" ++ "/cjs/" ++ pathParseName "index.ts" ++ ".js" :=
  updatePackageJsonExports_single_index "index.ts" "dist" false pjDemo (by decide)

/-- C10: for the empty entry-point list and an existing manifest,
`updatePackageJsonExports` throws (a `TypeError` from `path.parse` on
`undefined`) before any write, so the on-disk manifest is unchanged and the
compile run exits with code 1. -/
theorem updatePackageJsonExports_empty_throws (srcDir outDir : String) (noTypes : Bool)
    (pj : PackageJson) (dirents : List DirEntry)
    (h : detectEntryPoints srcDir (some dirents) = .ok []) :
    updatePackageJsonExports [] outDir noTypes pj
        = .error "TypeError: path.parse received undefined"
      ∧ compileMain srcDir (some dirents) outDir noTypes (some pj) = (1, some pj) := by
  refine ⟨rfl, ?_⟩
  unfold compileMain
  rw [h]
  rfl

/-- Witness for C10: a source directory containing only "README.md" yields
an empty entry list, and the update step fails leaving the manifest as it
was. -/
theorem updatePackageJsonExports_empty_throws_witness :
    updatePackageJsonExports [] "dist" false pjDemo
        = .error "TypeError: path.parse received undefined"
      ∧ compileMain "src" (some [{ name := "README.md", isFile := true }]) "dist" false
          (some pjDemo) = (1, some pjDemo) :=
  updatePackageJsonExports_empty_throws "src" "dist" false pjDemo
    [{ name := "README.md", isFile := true }] rfl

/-- C9: whenever `updatePackageJsonExports` writes a manifest, the output
directory name is appended to `files` exactly when not already a member,
`files` is created as `[outDir]` when absent, and every manifest field other
than `main`, `module`, `types`, `exports` and `files` is preserved
verbatim. -/
theorem updatePackageJsonExports_files_and_frame (eps : List String) (outDir : String)
    (noTypes : Bool) (pj pj2 : PackageJson)
    (h : updatePackageJsonExports eps outDir noTypes pj = .ok pj2) :
    pj2.rest = pj.rest
      ∧ (pj.files = none → pj2.files = some [outDir])
      ∧ ∀ fl, pj.files = some fl →
          (outDir ∈ fl → pj2.files = some fl)
            ∧ (outDir ∉ fl → pj2.files = some (fl ++ [outDir])) := by
  have hfr : pj2.files = filesUpdate pj.files outDir ∧ pj2.rest = pj.rest := by
    unfold updatePackageJsonExports at h
    split at h
    · injection h with h2
      subst h2
      exact ⟨rfl, rfl⟩
    · split at h
      · cases h
      · injection h with h2
        subst h2
        exact ⟨rfl, rfl⟩
  obtain ⟨hf, hr⟩ := hfr
  refine ⟨hr, ?_, ?_⟩
  · intro hn
    rw [hf, hn]
    rfl
  · intro fl hfl
    constructor
    · intro hm
      have hc : fl.contains outDir = true := List.elem_iff.mpr hm
      rw [hf, hfl]
      simp only [filesUpdate, hc, if_true]
    · intro hm
      have hc : ¬(fl.contains outDir = true) := fun hc => hm (List.elem_iff.mp hc)
      rw [hf, hfl]
      simp only [filesUpdate]
      rw [if_neg hc]

/-- Witness for C9: a manifest with `files = ["x"]` gains "dist" at the end,
and its other fields survive unchanged. -/
theorem updatePackageJsonExports_files_and_frame_witness :
    ({ main := some "./dist/cjs/index.js", module := some "./dist/esm/index.js",
       types := some "./dist/types/index.d.ts",
       exports := some [(".", mkExportEntry "dist" "index" false)],
       files := some ["x", "dist"], rest := pjDemo.rest } : PackageJson).rest
        = ({ pjDemo with files := some ["x"] } : PackageJson).rest
      ∧ ({ main := some "./dist/cjs/index.js", module := some "./dist/esm/index.js",
           types := some "./dist/types/index.d.ts",
           exports := some [(".", mkExportEntry "dist" "index" false)],
           files := some ["x", "dist"], rest := pjDemo.rest } : PackageJson).files
          = some (["x"] ++ ["dist"]) := by
  have h := updatePackageJsonExports_files_and_frame ["index.ts"] "dist" false
    { pjDemo with files := some ["x"] }
    { main := some "./dist/cjs/index.js", module := some "./dist/esm/index.js",
      types := some "./dist/types/index.d.ts",
      exports := some [(".", mkExportEntry "dist" "index" false)],
      files := some ["x", "dist"], rest := pjDemo.rest } rfl
  exact ⟨h.1, (h.2.2 ["x"] rfl).2 (by decide)⟩

/-- C3 is wrong as stated for a manifest that already carries a `types`
field: with the no-types flag set, `updatePackageJsonExports` never deletes
the pre-existing top-level `types`, so the written manifest still contains
it. -/
theorem updatePackageJsonExports_noTypes_keeps_existing_types :
    (updatePackageJsonExports ["index.ts"] "dist" true
        { pjDemo with types := some "./old.d.ts" }).toOption.map PackageJson.types
      = some (some "./old.d.ts")
    ∧ some (some "./old.d.ts") ≠ some (none : Option String) :=
  ⟨rfl, by decide⟩

/-- C3 (amended): with the no-types flag set, `updatePackageJsonExports`
never adds or overwrites a top-level `types` field (the output carries
exactly the input's `types`, in particular none when the input had none),
and no export-map entry receives a `types` sub-field. -/
theorem updatePackageJsonExports_noTypes_adds_no_types (eps : List String) (outDir : String)
    (pj pj2 : PackageJson) (h : updatePackageJsonExports eps outDir true pj = .ok pj2) :
    pj2.types = pj.types
      ∧ ∀ m, pj2.exports = some m → ∀ kv ∈ m, kv.2.typesPath = none := by
  unfold updatePackageJsonExports at h
  split at h
  · injection h with h2
    subst h2
    refine ⟨rfl, ?_⟩
    intro m hm kv hkv
    injection hm with hm2
    subst hm2
    rw [List.mem_singleton] at hkv
    subst hkv
    rfl
  · split at h
    · cases h
    · injection h with h2
      subst h2
      refine ⟨rfl, ?_⟩
      intro m hm kv hkv
      injection hm with hm2
      subst hm2
      exact foldl_objSet_forall_values (fun v => v.typesPath = none)
        (fun e => if pathParseName e == "index" then "." else "./" ++ pathParseName e)
        (fun e => mkExportEntry outDir (pathParseName e) true)
        (fun e => rfl) eps []
        (fun kv hkv2 => absurd hkv2 (List.not_mem_nil kv)) kv hkv

/-- Witness for C3 (amended) at the concrete entry list ["index.ts"] and a
manifest with no prior `types` field. -/
theorem updatePackageJsonExports_noTypes_adds_no_types_witness :
    ({ main := some "./dist/cjs/index.js", module := some "./dist/esm/index.js",
       types := pjDemo.types, exports := some [(".", mkExportEntry "dist" "index" true)],
       files := some ["dist"], rest := pjDemo.rest } : PackageJson).types = pjDemo.types
      ∧ (mkExportEntry "dist" "index" true).typesPath = none := by
  have h := updatePackageJsonExports_noTypes_adds_no_types ["index.ts"] "dist" pjDemo
    { main := some "./dist/cjs/index.js", module := some "./dist/esm/index.js",
      types := pjDemo.types, exports := some [(".", mkExportEntry "dist" "index" true)],
      files := some ["dist"], rest := pjDemo.rest } rfl
  exact ⟨h.1, h.2 [(".", mkExportEntry "dist" "index" true)] rfl
    (".", mkExportEntry "dist" "index" true) (by simp)⟩

/-- C1 is wrong as stated for entries that differ only in extension:
`path.parse(entry).name` strips the extension, so "utils.ts" and "utils.js"
both produce the key "./utils" and the export map ends up with one key for
the two entry points, not two distinct keys. -/
theorem updatePackageJsonExports_extension_collision :
    (updatePackageJsonExports ["utils.ts", "utils.js"] "dist" false pjDemo).toOption.map
        (fun pj2 => pj2.exports.map (fun m => m.map Prod.fst))
      = some (some ["./utils"])
    ∧ ¬(["./utils"] : List String).length = (["utils.ts", "utils.js"] : List String).length :=
  ⟨rfl, by decide⟩

/-- C1 (amended): for every entry-point list with more than one file, the
export map has one key per distinct base name, in first-occurrence order
and without duplicates: "." for an entry whose base name is "index" and
"./(basename)" for every other entry; entries sharing a base name (for
example differing only in extension) collapse to a single key. -/
theorem updatePackageJsonExports_multi_keys (eps : List String) (outDir : String)
    (noTypes : Bool) (pj : PackageJson) (h : 1 < eps.length) :
    ∃ pj2 m, updatePackageJsonExports eps outDir noTypes pj = .ok pj2
      ∧ pj2.exports = some m
      ∧ m.map Prod.fst = exportKeys eps
      ∧ (exportKeys eps).Nodup
      ∧ ∀ e ∈ eps, (specExportKey e = "." ↔ pathParseName e = "index")
        ∧ (pathParseName e ≠ "index" → specExportKey e = "./" ++ pathParseName e)
        ∧ ∀ e2 ∈ eps, pathParseName e = pathParseName e2 → specExportKey e = specExportKey e2 := by
  have hlen : (eps.length == 1) = false := by
    rw [beq_eq_false_iff_ne]
    omega
  have hcond : (eps.length == 1 && jsStartsWith (eps.getD 0 "") "index.") = false := by
    rw [hlen, Bool.false_and]
  have hne : eps.head? = some (eps.getD 0 "") := by
    cases eps with
    | nil => simp at h
    | cons a t => rfl
  have hmain : ∃ me, jsOrStr (eps.find? (fun e => jsStartsWith e "index.")) eps.head?
      = some me := by
    cases hfind : eps.find? (fun e => jsStartsWith e "index.") with
    | none =>
      refine ⟨eps.getD 0 "", ?_⟩
      rw [hne]
      rfl
    | some s =>
      have hs0 := List.find?_some hfind
      have hs : jsStartsWith s "index." = true := hs0
      have hsne : (s == "") = false := by
        rw [beq_eq_false_iff_ne]
        intro heq
        subst heq
        exact absurd hs (by decide)
      refine ⟨s, ?_⟩
      simp [jsOrStr, hsne]
  obtain ⟨me, hme⟩ := hmain
  refine ⟨_, _, updatePackageJsonExports_else eps outDir noTypes pj hcond me hme, rfl,
    ?_, exportKeys_nodup eps, ?_⟩
  · exact foldl_objSet_map_fst
      (fun e => if pathParseName e == "index" then "." else "./" ++ pathParseName e)
      (fun e => mkExportEntry outDir (pathParseName e) noTypes) eps []
  · intro e _
    refine ⟨?_, ?_, ?_⟩
    · by_cases hb : (pathParseName e == "index") = true
      · constructor
        · intro _
          exact eq_of_beq hb
        · intro _
          unfold specExportKey
          rw [if_pos hb]
      · have hnb : pathParseName e ≠ "index" := by
          intro heq
          rw [heq] at hb
          exact hb (by simp)
        constructor
        · intro hdot
          unfold specExportKey at hdot
          rw [if_neg hb] at hdot
          have hlen2 := congrArg String.length hdot
          rw [String.length_append] at hlen2
          have h2 : ("./" : String).length = 2 := rfl
          have h1 : ("." : String).length = 1 := rfl
          omega
        · intro heq
          exact absurd heq hnb
    · intro hnb
      unfold specExportKey
      rw [if_neg (fun hc => hnb (eq_of_beq hc))]
    · intro e2 _ heq
      unfold specExportKey
      rw [heq]

/-- Witness for C1 (amended) at the concrete entry list
["index.ts", "utils.ts"]. -/
theorem updatePackageJsonExports_multi_keys_witness :
    ∃ pj2 m, updatePackageJsonExports ["index.ts", "utils.ts"] "dist" false pjDemo = .ok pj2
      ∧ pj2.exports = some m
      ∧ m.map Prod.fst = exportKeys ["index.ts", "utils.ts"]
      ∧ (exportKeys ["index.ts", "utils.ts"]).Nodup
      ∧ ∀ e ∈ (["index.ts", "utils.ts"] : List String),
          (specExportKey e = "." ↔ pathParseName e = "index")
          ∧ (pathParseName e ≠ "index" → specExportKey e = "./" ++ pathParseName e)
          ∧ ∀ e2 ∈ (["index.ts", "utils.ts"] : List String),
              pathParseName e = pathParseName e2 → specExportKey e = specExportKey e2 :=
  updatePackageJsonExports_multi_keys ["index.ts", "utils.ts"] "dist" false pjDemo (by decide)

/-- C6 is wrong as stated for an explicitly present but empty flag value:
`if (srcDirArg)` is a JavaScript truthiness test, so `--src-dir ""` is
skipped and the lower-priority tsconfig rootDir wins instead of the flag. -/
theorem detectSourceDir_empty_flag_not_returned :
    detectSourceDir (some tsconfigLib) (some "")
        { srcExists := true, libExists := true, binExists := true } = "lib"
      ∧ ("lib" : String) ≠ "" :=
  ⟨rfl, by decide⟩

/-- C6 (amended): `detectSourceDir` returns the --src-dir flag value when it
is present and non-empty (JavaScript-truthy); otherwise the tsconfig
rootDir when present and non-empty; otherwise the first existing path among
"src", "lib", "bin" in that order; otherwise the fixed fallback "src" —
each higher-priority truthy signal wins even when all lower-priority
signals are present. -/
theorem detectSourceDir_precedence :
    (∀ t fsp s, s ≠ "" → detectSourceDir t (some s) fsp = s)
      ∧ (∀ t a fsp r, jsTruthy a = false → tsconfigRootDir t = some r → r ≠ "" →
          detectSourceDir t a fsp = r)
      ∧ (∀ t a fsp, jsTruthy a = false → jsTruthy (tsconfigRootDir t) = false →
          detectSourceDir t a fsp =
            if fsp.srcExists then "src" else if fsp.libExists then "lib"
            else if fsp.binExists then "bin" else "src") := by
  refine ⟨?_, ?_, ?_⟩
  · intro t fsp s hs
    have hbeq : (s == "") = false := beq_eq_false_iff_ne.mpr hs
    simp [detectSourceDir, jsTruthy, jsToStr, hbeq]
  · intro t a fsp r ha hr hrne
    have hbeq : (r == "") = false := beq_eq_false_iff_ne.mpr hrne
    unfold detectSourceDir
    rw [ha, hr]
    simp [jsTruthy, jsToStr, hbeq]
  · intro t a fsp ha hb
    simp [detectSourceDir, ha, hb]

/-- Witness for C6 (amended): the three precedence levels at concrete
inputs with all lower-priority signals present. -/
theorem detectSourceDir_precedence_witness :
    detectSourceDir (some tsconfigLib) (some "custom")
        { srcExists := true, libExists := true, binExists := true } = "custom"
      ∧ detectSourceDir (some tsconfigLib) none
          { srcExists := true, libExists := true, binExists := true } = "lib"
      ∧ detectSourceDir none none { srcExists := false, libExists := true, binExists := true }
          = (if false then "src" else if true then "lib" else if true then "bin" else "src") :=
  ⟨detectSourceDir_precedence.1 _ _ "custom" (by decide),
    detectSourceDir_precedence.2.1 _ none _ "lib" rfl rfl (by decide),
    detectSourceDir_precedence.2.2 none none _ rfl rfl⟩

/-- C8 is wrong as stated about the output directory: a trailing --out-dir
assigns `undefined` to the parsed output directory, overwriting the default
"dist", and that `undefined` is string-coerced into the compiler command
path as the text "undefined". -/
theorem parseArgs_trailing_out_dir_loses_default :
    (parseArgs ["--out-dir"]).map (fun p => p.outDir) = some none
      ∧ (parseArgs ["--out-dir"]).map (fun p => p.outDir) ≠ some (some "dist")
      ∧ swcCommand "src" ((parseArgs ["--out-dir"]).bind (fun p => p.outDir)) "cjs" "cfg.swcrc"
        = "npx swc src -d undefined/cjs --config-file cfg.swcrc --strip-leading-paths" :=
  ⟨rfl, by decide, rfl⟩

/-- C8 (amended): an argument list ending in a value-taking flag completes
parsing without crashing, yielding `some` parsed request from any parser
state; a trailing --src-dir leaves the source-directory override absent
(`undefined`, treated as absent downstream); a trailing --out-dir sets the
output directory to `undefined`, which is coerced to the literal text
"undefined" in constructed paths rather than reverting to the default
"dist". -/
theorem parseArgs_trailing_value_flag (p : CLIArgs) :
    parseFlags p ["--out-dir"] = some { p with outDir := none }
      ∧ parseFlags p ["--src-dir"] = some { p with srcDir := none }
      ∧ swcCommand "src" none "cjs" "cfg.swcrc"
        = "npx swc src -d undefined/cjs --config-file cfg.swcrc --strip-leading-paths" :=
  ⟨rfl, rfl, rfl⟩
